import Mathlib

/-!
Verification development for the RAG chatbot service (`src/app.py`).

The Flask application is shallowly embedded: each Python function that the
claims mention is translated to an executable Lean definition, with external
collaborators (embedder, vector store internals, Redis, the Groq client)
represented as explicit parameters or state.  Text is modelled as `String`
(or `List Char` where sliding-window arithmetic matters).
-/

namespace RAG

/-! ## Chunker

Modelled from the spec: the splitting algorithm itself lives in langchain's
`RecursiveCharacterTextSplitter` (configured in `initialize_components` with
`chunk_size=1000`, `chunk_overlap=200`), so it is not part of the repository
source.  The spec describes the chunker as a sliding window of size `L`
advanced by `L - O` per step, emitting the remainder as a final shorter
chunk, with empty text producing an empty sequence. -/

/-- Modelled from the spec: one sliding-window step of the chunker, with
explicit fuel so the definition is structurally recursive (the fuel is set to
`T.length`, which is enough whenever `O < L`). -/
def chunkFuel (L O : Nat) : Nat → List Char → List (List Char)
  | 0, _ => []
  | fuel + 1, T =>
    if T.length < L then (if T.isEmpty then [] else [T])
    else T.take L :: chunkFuel L O fuel (T.drop (L - O))

/-- Modelled from the spec: `chunk(text, L, O)` slides a window of size `L`
forward by `L - O` each step until the remaining text is shorter than `L`,
then emits the remainder; empty text yields an empty sequence. -/
def chunk (L O : Nat) (T : List Char) : List (List Char) :=
  chunkFuel L O T.length T

/-- Re-concatenation of chunks with each chunk's leading `O`-unit overlap
removed (the round-trip inverse described in the spec's testable
properties). -/
def unchunk (O : Nat) : List (List Char) → List Char
  | [] => []
  | c :: rest => c ++ (rest.map (List.drop O)).flatten

end RAG

namespace RAG

theorem chunkFuel_flatten_drop (L O : Nat) (hol : O < L) :
    ∀ fuel T, T.length ≤ fuel →
      ((chunkFuel L O fuel T).map (List.drop O)).flatten = T.drop O := by
  intro fuel
  induction fuel with
  | zero =>
    intro T hT
    have hTnil : T = [] := List.length_eq_zero.mp (Nat.le_zero.mp hT)
    subst hTnil
    simp [chunkFuel]
  | succ n ih =>
    intro T hT
    by_cases hlen : T.length < L
    · by_cases hemp : T.isEmpty
      · have hTnil : T = [] := List.isEmpty_iff.mp hemp
        subst hTnil
        rw [chunkFuel, if_pos hlen, if_pos hemp]
        simp
      · simp [chunkFuel, hlen, hemp]
    · have hLle : L ≤ T.length := Nat.le_of_not_lt hlen
      have hstep : (T.drop (L - O)).length ≤ n := by
        rw [List.length_drop]
        omega
      have ihT := ih (T.drop (L - O)) hstep
      rw [chunkFuel]
      rw [if_neg hlen]
      rw [List.map_cons, List.flatten_cons, ihT]
      rw [List.drop_drop]
      have h1 : (T.take L).drop O = (T.drop O).take (L - O) := List.drop_take ..
      have h2 : L - O + O = L := Nat.sub_add_cancel (Nat.le_of_lt hol)
      rw [h1, h2]
      have h3 : T.drop L = (T.drop O).drop (L - O) := by
        rw [List.drop_drop]
        rw [Nat.add_sub_cancel' (Nat.le_of_lt hol)]
      rw [h3, List.take_append_drop]

theorem chunkFuel_unchunk (L O : Nat) (hol : O < L) :
    ∀ fuel T, T.length ≤ fuel → unchunk O (chunkFuel L O fuel T) = T := by
  intro fuel
  induction fuel with
  | zero =>
    intro T hT
    have hTnil : T = [] := List.length_eq_zero.mp (Nat.le_zero.mp hT)
    subst hTnil
    simp [chunkFuel, unchunk]
  | succ n _ =>
    intro T hT
    by_cases hlen : T.length < L
    · by_cases hemp : T.isEmpty
      · have hTnil : T = [] := List.isEmpty_iff.mp hemp
        subst hTnil
        rw [chunkFuel, if_pos hlen, if_pos hemp]
        rfl
      · simp [chunkFuel, hlen, hemp, unchunk]
    · have hstep : (T.drop (L - O)).length ≤ n := by
        rw [List.length_drop]
        omega
      rw [chunkFuel, if_neg hlen]
      rw [unchunk]
      rw [chunkFuel_flatten_drop L O hol n (T.drop (L - O)) hstep]
      rw [List.drop_drop]
      rw [Nat.sub_add_cancel (Nat.le_of_lt hol)]
      exact List.take_append_drop L T

theorem chunkFuel_dropLast_length (L O : Nat) (hol : O < L) :
    ∀ fuel T, T.length ≤ fuel →
      ∀ c ∈ (chunkFuel L O fuel T).dropLast, c.length = L := by
  intro fuel
  induction fuel with
  | zero =>
    intro T _ c hc
    simp [chunkFuel] at hc
  | succ n ih =>
    intro T hT c hc
    by_cases hlen : T.length < L
    · by_cases hemp : T.isEmpty
      · simp [chunkFuel, hlen, hemp] at hc
      · simp [chunkFuel, hlen, hemp] at hc
    · have hLle : L ≤ T.length := Nat.le_of_not_lt hlen
      rw [chunkFuel, if_neg hlen] at hc
      cases hcs : chunkFuel L O n (T.drop (L - O)) with
      | nil =>
        rw [hcs] at hc
        simp at hc
      | cons c2 tl =>
        rw [hcs] at hc
        rw [List.dropLast_cons₂] at hc
        rcases List.mem_cons.mp hc with h | h
        · subst h
          rw [List.length_take]
          omega
        · have hstep : (T.drop (L - O)).length ≤ n := by
            rw [List.length_drop]
            omega
          exact ih (T.drop (L - O)) hstep c (by rw [hcs]; exact h)

theorem chunkFuel_head_shape (L O : Nat) :
    ∀ fuel T c cs, chunkFuel L O fuel T = c :: cs → c = T.take L := by
  intro fuel
  cases fuel with
  | zero =>
    intro T c cs h
    simp [chunkFuel] at h
  | succ n =>
    intro T c cs h
    by_cases hlen : T.length < L
    · by_cases hemp : T.isEmpty
      · simp [chunkFuel, hlen, hemp] at h
      · rw [chunkFuel, if_pos hlen, if_neg hemp] at h
        have hc : c = T := ((List.cons.injEq ..).mp h.symm).1
        rw [hc, List.take_of_length_le (Nat.le_of_lt hlen)]
    · rw [chunkFuel, if_neg hlen] at h
      exact ((List.cons.injEq ..).mp h.symm).1

theorem chunkFuel_overlap (L O : Nat) (hol : O < L) :
    ∀ fuel T, T.length ≤ fuel →
      ∀ i c1 c2, (chunkFuel L O fuel T)[i]? = some c1 →
        (chunkFuel L O fuel T)[i + 1]? = some c2 →
        c2.take O = c1.drop (L - O) := by
  intro fuel
  induction fuel with
  | zero =>
    intro T _ i c1 c2 h1 _
    simp [chunkFuel] at h1
  | succ n ih =>
    intro T hT i c1 c2 h1 h2
    by_cases hlen : T.length < L
    · by_cases hemp : T.isEmpty
      · rw [chunkFuel, if_pos hlen, if_pos hemp] at h1
        simp at h1
      · rw [chunkFuel, if_pos hlen, if_neg hemp] at h2
        rw [List.getElem?_cons_succ] at h2
        simp at h2
    · have hLle : L ≤ T.length := Nat.le_of_not_lt hlen
      have hstep : (T.drop (L - O)).length ≤ n := by
        rw [List.length_drop]
        omega
      rw [chunkFuel, if_neg hlen] at h1 h2
      cases i with
      | zero =>
        rw [List.getElem?_cons_zero] at h1
        have hc1 : c1 = T.take L := by
          have := Option.some.inj h1
          exact this.symm
        rw [List.getElem?_cons_succ] at h2
        cases hcs : chunkFuel L O n (T.drop (L - O)) with
        | nil =>
          rw [hcs] at h2
          simp at h2
        | cons ch ct =>
          rw [hcs] at h2
          rw [List.getElem?_cons_zero] at h2
          have hc2 : c2 = ch := (Option.some.inj h2).symm
          have hch : ch = (T.drop (L - O)).take L :=
            chunkFuel_head_shape L O n (T.drop (L - O)) ch ct hcs
          subst hc1
          rw [hc2, hch]
          rw [List.take_take]
          have hmin : O ⊓ L = O := min_eq_left (Nat.le_of_lt hol)
          rw [hmin]
          have hdt : (T.take L).drop (L - O) = (T.drop (L - O)).take (L - (L - O)) :=
            List.drop_take ..
          rw [hdt]
          rw [Nat.sub_sub_self (Nat.le_of_lt hol)]
      | succ j =>
        rw [List.getElem?_cons_succ] at h1 h2
        exact ih (T.drop (L - O)) hstep j c1 c2 h1 h2

/-- C1: chunking slides a window of size `L` forward by `L - O` per step:
empty text yields an empty sequence, every chunk except possibly the last has
length exactly `L`, consecutive chunks share exactly `O` units of overlap
(the leading `O` units of each chunk equal the trailing `O` units of its
predecessor), and re-concatenating the chunks with each chunk's leading
`O`-unit overlap removed reconstructs the text exactly.  Stated for all
parameters `O < L`, hence in particular for the configured `L = 1000`,
`O = 200`. -/
theorem chunk_sliding_window_correct (L O : Nat) (T : List Char) (hol : O < L) :
    chunk L O [] = []
    ∧ (∀ c ∈ (chunk L O T).dropLast, c.length = L)
    ∧ (∀ i c1 c2, (chunk L O T)[i]? = some c1 → (chunk L O T)[i + 1]? = some c2 →
        c2.take O = c1.drop (L - O))
    ∧ unchunk O (chunk L O T) = T := by
  refine ⟨rfl, ?_, ?_, ?_⟩
  · exact chunkFuel_dropLast_length L O hol T.length T (Nat.le_refl _)
  · exact fun i c1 c2 h1 h2 =>
      chunkFuel_overlap L O hol T.length T (Nat.le_refl _) i c1 c2 h1 h2
  · exact chunkFuel_unchunk L O hol T.length T (Nat.le_refl _)

set_option maxRecDepth 10000 in
/-- Witness for `chunk_sliding_window_correct` at the configured parameters
`L = 1000`, `O = 200`, on a 1801-character text: the first two chunks (of
exactly 1000 characters each) overlap in 200 units, and the round trip
reconstructs the text. -/
theorem chunk_sliding_window_correct_witness :
    (200 : Nat) < 1000
    ∧ chunk 1000 200 [] = []
    ∧ List.take 200 (List.replicate 1000 'a') = List.drop 800 (List.replicate 1000 'a')
    ∧ unchunk 200 (chunk 1000 200 (List.replicate 1801 'a')) = List.replicate 1801 'a' :=
  ⟨by decide,
   (chunk_sliding_window_correct 1000 200 (List.replicate 1801 'a') (by decide)).1,
   (chunk_sliding_window_correct 1000 200 (List.replicate 1801 'a') (by decide)).2.2.1
     0 (List.replicate 1000 'a') (List.replicate 1000 'a') (by decide) (by decide),
   (chunk_sliding_window_correct 1000 200 (List.replicate 1801 'a') (by decide)).2.2.2⟩

end RAG

namespace RAG

/-! ## Data model

`Document` mirrors a langchain document produced by `PyPDFLoader` /
`TextLoader` (source filename plus page content); `Chunk` mirrors a split
document carrying its provenance.  Text content is modelled as `List Char`
so that it connects to the chunker. -/

structure Document where
  source : String
  page_content : List Char
deriving DecidableEq

structure Chunk where
  source : String
  text : List Char
deriving DecidableEq

/-- The two pieces of global index state of `app.py`: the in-memory
`document_store` handle and the persisted `./chroma_db` directory.  `none`
means "not built" / "directory absent"; `some g` holds the generation of
indexed chunks. -/
structure RAGState where
  document_store : Option (List Chunk)
  chroma_db : Option (List Chunk)
deriving DecidableEq

/-- A file sitting in the uploads folder: its (sanitized) name and the
outcome of running the format-specific loader on it (`Except.error` models
the loader raising on a corrupt / unparsable file). -/
structure FileEntry where
  name : String
  parse : Except String (List Document)

instance : DecidableEq (Except String (List Document)) := fun a b =>
  match a, b with
  | Except.error x, Except.error y =>
    if h : x = y then isTrue (by rw [h]) else isFalse (by intro hc; cases hc; exact h rfl)
  | Except.ok x, Except.ok y =>
    if h : x = y then isTrue (by rw [h]) else isFalse (by intro hc; cases hc; exact h rfl)
  | Except.error _, Except.ok _ => isFalse (by intro hc; cases hc)
  | Except.ok _, Except.error _ => isFalse (by intro hc; cases hc)

deriving instance DecidableEq for FileEntry

/-- Lower-casing of ASCII names, as Python's `str.lower()` is used on
filename extensions. -/
def strLower (s : String) : String :=
  String.mk (s.toList.map Char.toLower)

/-- The text after the last dot of a filename: `filename.rsplit('.', 1)[1]`
(meaningful only when the name contains a dot, exactly as in
`allowed_file`). -/
def extAfterLastDot (s : String) : String :=
  String.mk ((s.toList.reverse.takeWhile (fun c => c != '.')).reverse)

/-- `allowed_file` from `app.py`: the name contains a dot and the text after
the last dot, lower-cased, is `pdf` or `txt`. -/
def allowed_file (filename : String) : Bool :=
  filename.toList.contains '.' &&
    (strLower (extAfterLastDot filename) == "pdf"
      || strLower (extAfterLastDot filename) == "txt")

/-- `pathlib.Path(...).suffix`: the `.ext` part of the final component, and
`""` when the last dot is the first or the last character. -/
def pathSuffix (name : String) : String :=
  let cs := name.toList
  match cs.reverse.findIdx? (fun c => c == '.') with
  | none => ""
  | some j =>
    let i := cs.length - 1 - j
    if 0 < i && i + 1 < cs.length then String.mk (cs.drop i) else ""

/-- `load_documents_from_directory` from `app.py`: iterate over the files of
the directory; for each `.pdf` or `.txt` file run the loader and extend the
accumulated list, other suffixes are skipped.  The loop has no `try`/`except`:
a loader error propagates immediately as an exception (`Except.error`),
abandoning the documents accumulated so far and the remaining files. -/
def load_documents_from_directory : List FileEntry → Except String (List Document)
  | [] => Except.ok []
  | f :: rest =>
    if strLower (pathSuffix f.name) = ".pdf" then
      match f.parse with
      | Except.error e => Except.error e
      | Except.ok docs =>
        (load_documents_from_directory rest).map (fun ds => docs ++ ds)
    else if strLower (pathSuffix f.name) = ".txt" then
      match f.parse with
      | Except.error e => Except.error e
      | Except.ok docs =>
        (load_documents_from_directory rest).map (fun ds => docs ++ ds)
    else load_documents_from_directory rest

/-- Modelled from the spec: `text_splitter.split_documents` (langchain) chunks
each document independently — chunk boundaries never cross document
boundaries — with the configured `L = 1000`, `O = 200`, tagging every chunk
with its source document. -/
def split_documents (docs : List Document) : List Chunk :=
  docs.flatMap (fun d => (chunk 1000 200 d.page_content).map (fun t => ⟨d.source, t⟩))

/-- `process_documents` from `app.py`, as the sequence of global states it
passes through plus its outcome.  Outcome `some b` is the returned boolean,
`none` means an exception escaped (a loader error, or — when `buildOk` is
`false` — a failure inside `Chroma.from_documents`, whose internals are
external).  The state list starts at the entry state: on the non-empty path
the code first deletes the `./chroma_db` directory (`shutil.rmtree`) and only
then constructs the new store, so the intermediate state has `chroma_db =
none` while `document_store` still holds the previous generation. -/
def process_documents_trace (files : List FileEntry) (buildOk : Bool) (s : RAGState) :
    List RAGState × Option Bool :=
  match load_documents_from_directory files with
  | Except.error _ => ([s], none)
  | Except.ok docs =>
    if docs.isEmpty then ([s], some false)
    else
      let final := split_documents docs
      if buildOk then
        ([s, ⟨s.document_store, none⟩, ⟨some final, some final⟩], some true)
      else
        ([s, ⟨s.document_store, none⟩], none)

/-- A file arriving in the `/upload` request: its client-supplied filename
and what the loader will produce for it once saved.  `secure_filename` is
external werkzeug sanitization and is modelled as the identity. -/
structure UploadFile where
  filename : String
  parse : Except String (List Document)
deriving DecidableEq

def toFileEntry (f : UploadFile) : FileEntry :=
  ⟨f.filename, f.parse⟩

/-- The saving condition of the upload loop: `if file and allowed_file(...)`
(a `FileStorage` is truthy when its filename is non-empty). -/
def validUpload (f : UploadFile) : Bool :=
  (f.filename != "") && allowed_file f.filename

/-- The HTTP outcome of `/upload`: a 400 response, a 500 response, an
uncaught exception, or the 200 success body. -/
inductive UploadResult where
  | badRequest (error : String)
  | serverError (error : String)
  | exception (error : String)
  | ok (message : String) (files : List String)
deriving DecidableEq

/-- `upload_files` from `app.py`.  After the request-shape checks it first
deletes every file already in the uploads folder, then saves the valid files,
rejects the batch if none were valid, and finally runs `process_documents`.
Returns the HTTP outcome, the resulting uploads folder, and the resulting
global index state. -/
def upload_files (hasFilesField : Bool) (files : List UploadFile)
    (folder : List FileEntry) (s : RAGState) (buildOk : Bool) :
    UploadResult × List FileEntry × RAGState :=
  if ¬ hasFilesField then (UploadResult.badRequest "No files provided", folder, s)
  else if files.isEmpty || files.all (fun f => f.filename == "") then
    (UploadResult.badRequest "No files selected", folder, s)
  else
    let kept := files.filter validUpload
    let saved := kept.map toFileEntry
    if kept.isEmpty then (UploadResult.badRequest "No valid files uploaded", saved, s)
    else
      let r := process_documents_trace saved buildOk s
      let sFinal := r.1.getLastD s
      match r.2 with
      | some true =>
        (UploadResult.ok
          ("Successfully uploaded and processed " ++ toString kept.length ++ " files")
          (kept.map (fun f => f.filename)), saved, sFinal)
      | some false => (UploadResult.serverError "Failed to process documents", saved, sFinal)
      | none => (UploadResult.exception "unhandled error during processing", saved, sFinal)

end RAG

namespace RAG

/-! ## Session memory and chat -/

/-- A conversation turn, as stored in the Redis-backed history (langchain
message type `human` ↦ `user`, `ai` ↦ `assistant`). -/
inductive Role where
  | user
  | assistant
deriving DecidableEq

structure Turn where
  role : Role
  content : String
deriving DecidableEq

/-- Modelled from the spec: the Redis-backed per-session message log
(`RedisChatMessageHistory`) is a durable map from session id to the ordered
list of turns, oldest first; an unknown id holds the empty sequence. -/
def MemoryStore := String → List Turn

/-- Modelled from the spec: `add_user_message` / `add_ai_message` append one
turn at the end of the given session's log and leave every other session
untouched. -/
def append_turn (store : MemoryStore) (sid : String) (t : Turn) : MemoryStore :=
  fun s2 => if s2 = sid then store s2 ++ [t] else store s2

/-- The per-turn rendering used by the prompt: `"<role-label>: <text>\n"`
with `user ↦ "User"` and `assistant ↦ "AI"`. -/
def renderTurn (t : Turn) : String :=
  (if t.role = Role.user then "User" else "AI") ++ ": " ++ t.content ++ "\n"

/-- The history block of `get_groq_response`: `history_text` is accumulated
by appending one rendered line per message, oldest first. -/
def history_text (chat_history : List Turn) : String :=
  chat_history.foldl (fun acc msg => acc ++ renderTurn msg) ""

/-- The f-string `formatted_prompt` of `get_groq_response`, literally: a
leading newline, the history block, the instruction lines, the context
block, the question, and the answer cue. -/
def formatted_prompt (prompt context : String) (chat_history : List Turn) : String :=
  "\n" ++ history_text chat_history
    ++ "\nAnswer the question based on the provided context only.\nPlease provide the most accurate response based on the question.\n\nContext:\n"
    ++ context ++ "\n\nQuestion: " ++ prompt ++ "\n\nAnswer:\n"

/-- `get_groq_response` from `app.py`: the external completion call `gen` is
applied to the assembled prompt; on success the content is stripped, and a
raised exception is caught and mapped to the literal error answer. -/
def get_groq_response (prompt context : String) (chat_history : List Turn)
    (gen : String → Except String String) : String :=
  match gen (formatted_prompt prompt context chat_history) with
  | Except.ok s => s.trim
  | Except.error e => "Error generating response: " ++ e

/-- The environment of one chat request: what the retriever would return on
the indexed path (`retrieved`, in similarity order), whether the retriever
raises, the measured retrieval time, and the external generation function. -/
structure ChatEnv where
  retrieved : List String
  retrieveErr : Option String
  elapsed : Nat
  gen : String → Except String String

/-- The dictionary returned by `retrieve_documents`: the `answer` key is
present exactly on the two degraded paths (store not built, retriever
raised). -/
structure RetDict where
  answer : Option String
  response_time : Nat
  context : List String
  context_str : Option String
deriving DecidableEq

/-- `retrieve_documents` from `app.py`: with no store built it returns the
fixed "no documents" dictionary with `response_time = 0` and empty context;
with a store built it queries the retriever, joining the chunk texts with a
blank-line delimiter (an exception is caught and mapped to the error
dictionary). -/
def retrieve_documents (store : Option (List Chunk)) (env : ChatEnv) : RetDict :=
  match store with
  | none => ⟨some "No documents uploaded yet. Please upload documents first.", 0, [], none⟩
  | some _ =>
    match env.retrieveErr with
    | some e => ⟨some ("Error processing query: " ++ e), 0, [], none⟩
    | none => ⟨none, env.elapsed, env.retrieved,
        some (String.intercalate "\n\n" env.retrieved)⟩

/-- The session-id fallback of `chat`: `request.remote_addr or
os.urandom(8).hex()`. -/
def session_fallback (addr : Option String) (randHex : String) : String :=
  match addr with
  | some a => if a = "" then randHex else a
  | none => randHex

/-- The session resolution of `chat`: `session.get('session_id')` if truthy,
else the fallback (the client's IP address when present, else a fresh random
hex). -/
def resolve_session (fs addr : Option String) (randHex : String) : String :=
  match fs with
  | some s => if s = "" then session_fallback addr randHex else s
  | none => session_fallback addr randHex

/-- The JSON body of a successful `/chat` response. -/
structure ChatOut where
  answer : String
  response_time : Nat
  context : List String
  chat_history : List String
deriving DecidableEq

inductive ChatResult where
  | badRequest (error : String)
  | ok (out : ChatOut)
deriving DecidableEq

/-- `chat` from `app.py`.  Inputs: the message, the Flask session cookie
value, `request.remote_addr`, the random hex that `os.urandom(8).hex()`
would produce, the memory store, the global `document_store`, and the request
environment.  Returns the HTTP result, the updated memory store, the Flask
session cookie after the request, and a flag recording whether the external
generation function was invoked. -/
def chat (msg : String) (fs addr : Option String) (randHex : String)
    (store : MemoryStore) (docStore : Option (List Chunk)) (env : ChatEnv) :
    ChatResult × MemoryStore × Option String × Bool :=
  if msg = "" then (ChatResult.badRequest "No message provided", store, fs, false)
  else
    let session_id := resolve_session fs addr randHex
    let chat_history := store session_id
    let store1 := append_turn store session_id ⟨Role.user, msg⟩
    let doc := retrieve_documents docStore env
    match doc.answer with
    | some a =>
      (ChatResult.ok ⟨a, doc.response_time, doc.context,
        chat_history.map (fun m => m.content)⟩, store1, some session_id, false)
    | none =>
      let answer := get_groq_response msg (doc.context_str.getD "") chat_history env.gen
      let store2 := append_turn store1 session_id ⟨Role.assistant, answer⟩
      (ChatResult.ok ⟨answer, doc.response_time, doc.context,
        (store2 session_id).map (fun m => m.content)⟩, store2, some session_id, true)

/-! ## Spec-side definitions used for refinement statements -/

/-- Concatenation of a list of strings, used to state the spec-side prompt
layout. -/
def strConcat : List String → String
  | [] => ""
  | s :: rest => s ++ strConcat rest

/-- The spec's rendering of the prior conversation: each turn as
`"<role-label>: <text>"`, oldest first. -/
def spec_history_block (h : List Turn) : String :=
  strConcat (h.map renderTurn)

/-- The fixed instruction block constraining the answer to the supplied
context only. -/
def spec_instruction_block : String :=
  "Answer the question based on the provided context only.\nPlease provide the most accurate response based on the question."

/-- The spec's prompt assembly: history, then instruction block, then the
context block, then the current query, in this fixed order (with the glue
text the source uses between them). -/
def spec_prompt (query context : String) (h : List Turn) : String :=
  "\n" ++ spec_history_block h ++ "\n" ++ spec_instruction_block
    ++ "\n\nContext:\n" ++ context ++ "\n\nQuestion: " ++ query ++ "\n\nAnswer:\n"

end RAG

namespace RAG

/-! ## Theorems -/

theorem str_append_empty (s : String) : s ++ "" = s := by
  cases s with
  | mk data =>
    show String.mk (data ++ []) = String.mk data
    rw [List.append_nil]

theorem str_empty_append (s : String) : "" ++ s = s := by
  cases s with
  | mk data =>
    show String.mk ([] ++ data) = String.mk data
    rw [List.nil_append]

theorem str_append_assoc (a b c : String) : a ++ b ++ c = a ++ (b ++ c) := by
  cases a with
  | mk xa =>
    cases b with
    | mk xb =>
      cases c with
      | mk xc =>
        show String.mk (xa ++ xb ++ xc) = String.mk (xa ++ (xb ++ xc))
        rw [List.append_assoc]

theorem process_documents_trace_nonempty (files : List FileEntry) (b : Bool) (s : RAGState)
    (docs : List Document) (h : load_documents_from_directory files = Except.ok docs)
    (hne : docs.isEmpty = false) :
    process_documents_trace files b s =
      (if b then [s, ⟨s.document_store, none⟩,
          ⟨some (split_documents docs), some (split_documents docs)⟩]
        else [s, ⟨s.document_store, none⟩],
       if b then some true else none) := by
  simp only [process_documents_trace, h, hne]
  cases b <;> simp

/-- C3: if ingestion loads zero documents it returns `False` and neither the
in-memory `document_store` nor the persisted `chroma_db` is touched: the
trace consists of the entry state alone. -/
theorem ingestion_no_documents_preserves_index (files : List FileEntry) (b : Bool)
    (s : RAGState) (h : load_documents_from_directory files = Except.ok []) :
    process_documents_trace files b s = ([s], some false) := by
  simp [process_documents_trace, h]

/-- Witness for `ingestion_no_documents_preserves_index`: an empty uploads
folder loads zero documents and leaves a previously built index intact. -/
theorem ingestion_no_documents_preserves_index_witness :
    load_documents_from_directory [] = Except.ok []
    ∧ process_documents_trace [] true ⟨some [⟨"old.txt", ['x']⟩], some [⟨"old.txt", ['x']⟩]⟩
      = ([⟨some [⟨"old.txt", ['x']⟩], some [⟨"old.txt", ['x']⟩]⟩], some false) :=
  ⟨rfl, ingestion_no_documents_preserves_index [] true
    ⟨some [⟨"old.txt", ['x']⟩], some [⟨"old.txt", ['x']⟩]⟩ rfl⟩

/-- C2 counterexample: with a previous generation present in both
`document_store` and `chroma_db` and a failure inside the new index build,
ingestion reaches (and, on failure, ends in) a state whose persisted
`chroma_db` is already destroyed while the new index has not been built —
the old persisted index is discarded before the new one is constructed, not
after. -/
theorem ingestion_destroys_old_index_before_build_cex :
    process_documents_trace [⟨"new.txt", Except.ok [⟨"new.txt", ['h', 'i']⟩]⟩] false
        ⟨some [⟨"old.txt", ['x']⟩], some [⟨"old.txt", ['x']⟩]⟩
      = ([⟨some [⟨"old.txt", ['x']⟩], some [⟨"old.txt", ['x']⟩]⟩,
          ⟨some [⟨"old.txt", ['x']⟩], none⟩], none)
    ∧ (⟨some [⟨"old.txt", ['x']⟩], none⟩ : RAGState).chroma_db = none
    ∧ (⟨some [⟨"old.txt", ['x']⟩], some [⟨"old.txt", ['x']⟩]⟩ : RAGState).chroma_db ≠ none := by
  refine ⟨by decide, rfl, by decide⟩

/-- C2 amended: on a non-empty document set, ingestion first deletes the
persisted `chroma_db` directory and only then builds the new index; the
reachable intermediate state has `chroma_db = none` with the in-memory
`document_store` still at the previous generation, and a failure while
building the new index ends there (the previous persisted index is gone). -/
theorem ingestion_deletes_persisted_index_before_build (files : List FileEntry) (b : Bool)
    (s : RAGState) (docs : List Document)
    (h : load_documents_from_directory files = Except.ok docs) (hne : docs ≠ []) :
    process_documents_trace files b s =
      (if b then [s, ⟨s.document_store, none⟩,
          ⟨some (split_documents docs), some (split_documents docs)⟩]
        else [s, ⟨s.document_store, none⟩],
       if b then some true else none) := by
  have hne2 : docs.isEmpty = false := by
    cases docs with
    | nil => exact absurd rfl hne
    | cons a t => rfl
  exact process_documents_trace_nonempty files b s docs h hne2

/-- Witness for `ingestion_deletes_persisted_index_before_build` on a
one-file batch with a failing build. -/
theorem ingestion_deletes_persisted_index_before_build_witness :
    load_documents_from_directory [⟨"new.txt", Except.ok [⟨"new.txt", ['h', 'i']⟩]⟩]
      = Except.ok [⟨"new.txt", ['h', 'i']⟩]
    ∧ ([⟨"new.txt", ['h', 'i']⟩] : List Document) ≠ []
    ∧ process_documents_trace [⟨"new.txt", Except.ok [⟨"new.txt", ['h', 'i']⟩]⟩] false
        ⟨some [⟨"old.txt", ['x']⟩], some [⟨"old.txt", ['x']⟩]⟩
      = (if false then [⟨some [⟨"old.txt", ['x']⟩], some [⟨"old.txt", ['x']⟩]⟩,
            ⟨some [⟨"old.txt", ['x']⟩], none⟩,
            ⟨some (split_documents [⟨"new.txt", ['h', 'i']⟩]),
             some (split_documents [⟨"new.txt", ['h', 'i']⟩])⟩]
          else [⟨some [⟨"old.txt", ['x']⟩], some [⟨"old.txt", ['x']⟩]⟩,
            ⟨some [⟨"old.txt", ['x']⟩], none⟩],
         if false then some true else none) :=
  ⟨by decide, by decide,
   ingestion_deletes_persisted_index_before_build
     [⟨"new.txt", Except.ok [⟨"new.txt", ['h', 'i']⟩]⟩] false
     ⟨some [⟨"old.txt", ['x']⟩], some [⟨"old.txt", ['x']⟩]⟩
     [⟨"new.txt", ['h', 'i']⟩] (by decide) (by decide)⟩

/-- C6 counterexample: a batch of a corrupt PDF followed by a perfectly
readable text file does not load the sibling — the loader error escapes
`load_documents_from_directory` and the whole batch is aborted, so the
readable file's document is never produced. -/
theorem unreadable_file_aborts_siblings_cex :
    load_documents_from_directory
        [⟨"bad.pdf", Except.error "EOF marker not found"⟩,
         ⟨"good.txt", Except.ok [⟨"good.txt", ['h', 'i']⟩]⟩]
      = Except.error "EOF marker not found"
    ∧ load_documents_from_directory
        [⟨"bad.pdf", Except.error "EOF marker not found"⟩,
         ⟨"good.txt", Except.ok [⟨"good.txt", ['h', 'i']⟩]⟩]
      ≠ Except.ok [⟨"good.txt", ['h', 'i']⟩] := by
  refine ⟨by decide, by decide⟩

/-- C6 amended: an unreadable file whose suffix is `.pdf` or `.txt` aborts
the whole batch: the first loader error propagates out of
`load_documents_from_directory`, the documents collected from earlier files
are discarded, and the files after it are never consulted. -/
theorem unreadable_file_aborts_batch (l1 l2 : List FileEntry) (f : FileEntry) (e : String)
    (h1 : ∀ g ∈ l1, (strLower (pathSuffix g.name) = ".pdf"
        ∨ strLower (pathSuffix g.name) = ".txt") → ∃ ds, g.parse = Except.ok ds)
    (hf : strLower (pathSuffix f.name) = ".pdf" ∨ strLower (pathSuffix f.name) = ".txt")
    (he : f.parse = Except.error e) :
    load_documents_from_directory (l1 ++ f :: l2) = Except.error e := by
  induction l1 with
  | nil =>
    rw [List.nil_append]
    by_cases hpdf : strLower (pathSuffix f.name) = ".pdf"
    · simp [load_documents_from_directory, hpdf, he]
    · have htxt : strLower (pathSuffix f.name) = ".txt" := hf.resolve_left hpdf
      simp [load_documents_from_directory, hpdf, htxt, he]
  | cons g t ih =>
    have iht := ih (fun x hx hsfx => h1 x (List.mem_cons_of_mem g hx) hsfx)
    rw [List.cons_append]
    by_cases hpdf : strLower (pathSuffix g.name) = ".pdf"
    · obtain ⟨ds, hds⟩ := h1 g (List.mem_cons_self g t) (Or.inl hpdf)
      simp [load_documents_from_directory, hpdf, hds, iht, Except.map]
    · by_cases htxt : strLower (pathSuffix g.name) = ".txt"
      · obtain ⟨ds, hds⟩ := h1 g (List.mem_cons_self g t) (Or.inr htxt)
        simp [load_documents_from_directory, hpdf, htxt, hds, iht, Except.map]
      · simp [load_documents_from_directory, hpdf, htxt, iht]

/-- Witness for `unreadable_file_aborts_batch`: one readable file before the
corrupt one, one readable file after it. -/
theorem unreadable_file_aborts_batch_witness :
    (strLower (pathSuffix "bad.pdf") = ".pdf" ∨ strLower (pathSuffix "bad.pdf") = ".txt")
    ∧ (⟨"bad.pdf", Except.error "boom"⟩ : FileEntry).parse = Except.error "boom"
    ∧ load_documents_from_directory
        [⟨"a.txt", Except.ok [⟨"a.txt", ['a']⟩]⟩,
         ⟨"bad.pdf", Except.error "boom"⟩,
         ⟨"z.txt", Except.ok [⟨"z.txt", ['z']⟩]⟩]
      = Except.error "boom" :=
  ⟨by decide, rfl,
   unreadable_file_aborts_batch
     [⟨"a.txt", Except.ok [⟨"a.txt", ['a']⟩]⟩]
     [⟨"z.txt", Except.ok [⟨"z.txt", ['z']⟩]⟩]
     ⟨"bad.pdf", Except.error "boom"⟩ "boom"
     (by intro g hg hsfx
         have : g = ⟨"a.txt", Except.ok [⟨"a.txt", ['a']⟩]⟩ := by
           cases hg with
           | head => rfl
           | tail _ hx => exact absurd hx (List.not_mem_nil g)
         rw [this]
         exact ⟨[⟨"a.txt", ['a']⟩], rfl⟩)
     (by decide) rfl⟩

end RAG

namespace RAG

theorem split_documents_source_mem (docs : List Document) (c : Chunk)
    (hc : c ∈ split_documents docs) : c.source ∈ docs.map (fun d => d.source) := by
  unfold split_documents at hc
  rw [List.mem_flatMap] at hc
  obtain ⟨d, hd, hcd⟩ := hc
  rw [List.mem_map] at hcd
  obtain ⟨t, _, rfl⟩ := hcd
  exact List.mem_map.mpr ⟨d, hd, rfl⟩

/-- C7: a successful upload batch fully determines the resulting index: the
previous uploads-folder contents and the previous index state appear nowhere
in the result, the new index (in memory and persisted) consists exactly of
the chunks split from the newly loaded documents, every chunk in it
originates from a document of the new batch, and no chunk carries a source
that is not among the new batch's documents — so a query for content unique
to a prior upload can return no chunk of the prior generation. -/
theorem second_upload_replaces_entire_index (files2 : List UploadFile)
    (folder1 : List FileEntry) (s1 : RAGState) (docs2 : List Document)
    (hkept : files2.filter validUpload ≠ [])
    (hload : load_documents_from_directory ((files2.filter validUpload).map toFileEntry)
      = Except.ok docs2)
    (hne : docs2 ≠ []) :
    upload_files true files2 folder1 s1 true =
      (UploadResult.ok
        ("Successfully uploaded and processed "
          ++ toString (files2.filter validUpload).length ++ " files")
        ((files2.filter validUpload).map (fun f => f.filename)),
       (files2.filter validUpload).map toFileEntry,
       ⟨some (split_documents docs2), some (split_documents docs2)⟩)
    ∧ (∀ c ∈ split_documents docs2, c.source ∈ docs2.map (fun d => d.source))
    ∧ (∀ src, src ∉ docs2.map (fun d => d.source) →
        ∀ c ∈ split_documents docs2, c.source ≠ src) := by
  obtain ⟨f, hfmem, hfv⟩ : ∃ f, f ∈ files2 ∧ validUpload f = true := by
    cases hE : files2.filter validUpload with
    | nil => exact absurd hE hkept
    | cons a t =>
      have ha : a ∈ files2.filter validUpload := by
        rw [hE]
        exact List.mem_cons_self a t
      exact ⟨a, List.mem_filter.mp ha⟩
  have hne_f : (f.filename == "") = false := by
    simp only [validUpload, Bool.and_eq_true, bne_iff_ne] at hfv
    exact beq_eq_false_iff_ne.mpr hfv.1
  have hisEmpty : files2.isEmpty = false := by
    cases files2 with
    | nil => exact absurd hfmem (List.not_mem_nil f)
    | cons a t => rfl
  have hall : files2.all (fun g => g.filename == "") = false := by
    cases hx : files2.all (fun g => g.filename == "") with
    | false => rfl
    | true =>
      have hf2 := List.all_eq_true.mp hx f hfmem
      rw [hne_f] at hf2
      exact absurd hf2 (by decide)
  have hkeptE : (files2.filter validUpload).isEmpty = false := by
    cases hE : files2.filter validUpload with
    | nil => exact absurd hE hkept
    | cons a t => rfl
  have hne2 : docs2.isEmpty = false := by
    cases docs2 with
    | nil => exact absurd rfl hne
    | cons a t => rfl
  have hpt := process_documents_trace_nonempty
    ((files2.filter validUpload).map toFileEntry) true s1 docs2 hload hne2
  refine ⟨?_, fun c hc => split_documents_source_mem docs2 c hc, ?_⟩
  · simp only [upload_files, hisEmpty, hall, hkeptE, hpt]
    simp
  · intro src hsrc c hc heq
    exact hsrc (by rw [← heq]; exact split_documents_source_mem docs2 c hc)

/-- Witness for `second_upload_replaces_entire_index`: a second upload of
`b.txt` after a first batch (`a.txt`, still sitting in the folder and in the
index) leaves an index holding only the `b.txt` chunk. -/
theorem second_upload_replaces_entire_index_witness :
    ([⟨"b.txt", Except.ok [⟨"b.txt", ['h', 'i']⟩]⟩] : List UploadFile).filter validUpload ≠ []
    ∧ load_documents_from_directory
        ((([⟨"b.txt", Except.ok [⟨"b.txt", ['h', 'i']⟩]⟩] : List UploadFile).filter
            validUpload).map toFileEntry)
      = Except.ok [⟨"b.txt", ['h', 'i']⟩]
    ∧ ([⟨"b.txt", ['h', 'i']⟩] : List Document) ≠ []
    ∧ upload_files true [⟨"b.txt", Except.ok [⟨"b.txt", ['h', 'i']⟩]⟩]
        [⟨"a.txt", Except.ok [⟨"a.txt", ['o', 'l', 'd']⟩]⟩]
        ⟨some [⟨"a.txt", ['o', 'l', 'd']⟩], some [⟨"a.txt", ['o', 'l', 'd']⟩]⟩ true
      = (UploadResult.ok
          ("Successfully uploaded and processed "
            ++ toString (([⟨"b.txt", Except.ok [⟨"b.txt", ['h', 'i']⟩]⟩] :
                List UploadFile).filter validUpload).length ++ " files")
          ((([⟨"b.txt", Except.ok [⟨"b.txt", ['h', 'i']⟩]⟩] : List UploadFile).filter
              validUpload).map (fun f => f.filename)),
         (([⟨"b.txt", Except.ok [⟨"b.txt", ['h', 'i']⟩]⟩] : List UploadFile).filter
            validUpload).map toFileEntry,
         ⟨some (split_documents [⟨"b.txt", ['h', 'i']⟩]),
          some (split_documents [⟨"b.txt", ['h', 'i']⟩])⟩) :=
  ⟨by decide, by decide, by decide,
   (second_upload_replaces_entire_index
     [⟨"b.txt", Except.ok [⟨"b.txt", ['h', 'i']⟩]⟩]
     [⟨"a.txt", Except.ok [⟨"a.txt", ['o', 'l', 'd']⟩]⟩]
     ⟨some [⟨"a.txt", ['o', 'l', 'd']⟩], some [⟨"a.txt", ['o', 'l', 'd']⟩]⟩
     [⟨"b.txt", ['h', 'i']⟩] (by decide) (by decide) (by decide)).1⟩

/-- C10: an upload request whose files all lack an allowed extension is
rejected with the 400 "No valid files uploaded" response and the index state
is unchanged — but the uploads folder has already been emptied of the prior
batch's files before the per-file validation ran. -/
theorem invalid_upload_batch_still_clears_folder (files : List UploadFile)
    (folder : List FileEntry) (s : RAGState) (b : Bool)
    (hne : files ≠ []) (hnotall : files.all (fun f => f.filename == "") = false)
    (hnone : ∀ f ∈ files, allowed_file f.filename = false) :
    upload_files true files folder s b =
      (UploadResult.badRequest "No valid files uploaded", [], s) := by
  have hisEmpty : files.isEmpty = false := by
    cases files with
    | nil => exact absurd rfl hne
    | cons a t => rfl
  have hkept : files.filter validUpload = [] := by
    rw [List.filter_eq_nil_iff]
    intro a ha h
    have hva : validUpload a = false := by
      simp only [validUpload, hnone a ha, Bool.and_false]
    rw [hva] at h
    exact absurd h (by decide)
  simp only [upload_files, hisEmpty, hnotall, hkept]
  simp

/-- Witness for `invalid_upload_batch_still_clears_folder`: a single `.exe`
upload against a folder holding the previous batch. -/
theorem invalid_upload_batch_still_clears_folder_witness :
    ([⟨"run.exe", Except.ok []⟩] : List UploadFile) ≠ []
    ∧ ([⟨"run.exe", Except.ok []⟩] : List UploadFile).all (fun f => f.filename == "") = false
    ∧ allowed_file "run.exe" = false
    ∧ upload_files true [⟨"run.exe", Except.ok []⟩]
        [⟨"a.txt", Except.ok [⟨"a.txt", ['o', 'l', 'd']⟩]⟩]
        ⟨some [⟨"a.txt", ['o', 'l', 'd']⟩], some [⟨"a.txt", ['o', 'l', 'd']⟩]⟩ true
      = (UploadResult.badRequest "No valid files uploaded", [],
         ⟨some [⟨"a.txt", ['o', 'l', 'd']⟩], some [⟨"a.txt", ['o', 'l', 'd']⟩]⟩) :=
  ⟨by decide, by decide, by decide,
   invalid_upload_batch_still_clears_folder [⟨"run.exe", Except.ok []⟩]
     [⟨"a.txt", Except.ok [⟨"a.txt", ['o', 'l', 'd']⟩]⟩]
     ⟨some [⟨"a.txt", ['o', 'l', 'd']⟩], some [⟨"a.txt", ['o', 'l', 'd']⟩]⟩ true
     (by decide) (by decide)
     (by intro f hf
         have : f = ⟨"run.exe", Except.ok []⟩ := by
           cases hf with
           | head => rfl
           | tail _ hx => exact absurd hx (List.not_mem_nil f)
         rw [this]
         decide)⟩

end RAG

namespace RAG

/-- C4: a chat request arriving before any successful ingestion
(`document_store = none`) answers with the fixed "no documents" message,
`response_time = 0`, an empty context, the generation function is never
invoked (final flag `false`), and the session's memory gains exactly the
user's turn — one turn, not two. -/
theorem chat_before_ingestion_short_circuits (msg : String) (fs addr : Option String)
    (randHex : String) (store : MemoryStore) (env : ChatEnv) (hmsg : msg ≠ "") :
    chat msg fs addr randHex store none env =
      (ChatResult.ok ⟨"No documents uploaded yet. Please upload documents first.", 0, [],
        (store (resolve_session fs addr randHex)).map (fun m => m.content)⟩,
       append_turn store (resolve_session fs addr randHex) ⟨Role.user, msg⟩,
       some (resolve_session fs addr randHex), false)
    ∧ append_turn store (resolve_session fs addr randHex) ⟨Role.user, msg⟩
        (resolve_session fs addr randHex)
      = store (resolve_session fs addr randHex) ++ [⟨Role.user, msg⟩] := by
  constructor
  · unfold chat
    rw [if_neg hmsg]
    rfl
  · unfold append_turn
    rw [if_pos rfl]

/-- Witness for `chat_before_ingestion_short_circuits`: a fresh session,
empty memory, no index built. -/
theorem chat_before_ingestion_short_circuits_witness :
    ("hi" : String) ≠ ""
    ∧ (chat "hi" none (some "1.2.3.4") "r" (fun _ => []) none
        ⟨[], none, 0, fun _ => Except.ok "x"⟩).1
      = ChatResult.ok ⟨"No documents uploaded yet. Please upload documents first.", 0, [], []⟩
    ∧ (chat "hi" none (some "1.2.3.4") "r" (fun _ => []) none
        ⟨[], none, 0, fun _ => Except.ok "x"⟩).2.1 "1.2.3.4"
      = [⟨Role.user, "hi"⟩]
    ∧ (chat "hi" none (some "1.2.3.4") "r" (fun _ => []) none
        ⟨[], none, 0, fun _ => Except.ok "x"⟩).2.2.2 = false := by
  have h := chat_before_ingestion_short_circuits "hi" none (some "1.2.3.4") "r"
    (fun _ => []) ⟨[], none, 0, fun _ => Except.ok "x"⟩ (by decide)
  refine ⟨by decide, ?_, ?_, ?_⟩
  · rw [h.1]
    rfl
  · rw [h.1]
    simp [append_turn, resolve_session, session_fallback]
  · rw [h.1]


/-- C5: on the indexed path with the generation call raising `e`, the
returned answer is the literal error string, which is non-empty, and exactly
that string is appended as the assistant turn after the user turn — so it is
what every later history read of that session returns. -/
theorem chat_generation_failure_recorded (msg e : String) (fs addr : Option String)
    (randHex : String) (store : MemoryStore) (idx : List Chunk) (retrieved : List String)
    (elapsed : Nat) (gen : String → Except String String)
    (hmsg : msg ≠ "") (hgen : ∀ p, gen p = Except.error e) :
    chat msg fs addr randHex store (some idx) ⟨retrieved, none, elapsed, gen⟩ =
      (ChatResult.ok ⟨"Error generating response: " ++ e, elapsed, retrieved,
        ((append_turn
            (append_turn store (resolve_session fs addr randHex) ⟨Role.user, msg⟩)
            (resolve_session fs addr randHex)
            ⟨Role.assistant, "Error generating response: " ++ e⟩)
          (resolve_session fs addr randHex)).map (fun m => m.content)⟩,
       append_turn
         (append_turn store (resolve_session fs addr randHex) ⟨Role.user, msg⟩)
         (resolve_session fs addr randHex)
         ⟨Role.assistant, "Error generating response: " ++ e⟩,
       some (resolve_session fs addr randHex), true)
    ∧ append_turn
        (append_turn store (resolve_session fs addr randHex) ⟨Role.user, msg⟩)
        (resolve_session fs addr randHex)
        ⟨Role.assistant, "Error generating response: " ++ e⟩
        (resolve_session fs addr randHex)
      = store (resolve_session fs addr randHex)
          ++ [⟨Role.user, msg⟩, ⟨Role.assistant, "Error generating response: " ++ e⟩]
    ∧ ("Error generating response: " ++ e) ≠ "" := by
  have hg : get_groq_response msg (String.intercalate "\n\n" retrieved)
      (store (resolve_session fs addr randHex)) gen
      = "Error generating response: " ++ e := by
    unfold get_groq_response
    rw [hgen]
  refine ⟨?_, ?_, ?_⟩
  · have h0 : chat msg fs addr randHex store (some idx) ⟨retrieved, none, elapsed, gen⟩ =
      (ChatResult.ok ⟨get_groq_response msg (String.intercalate "\n\n" retrieved)
          (store (resolve_session fs addr randHex)) gen, elapsed, retrieved,
        ((append_turn
            (append_turn store (resolve_session fs addr randHex) ⟨Role.user, msg⟩)
            (resolve_session fs addr randHex)
            ⟨Role.assistant, get_groq_response msg (String.intercalate "\n\n" retrieved)
              (store (resolve_session fs addr randHex)) gen⟩)
          (resolve_session fs addr randHex)).map (fun m => m.content)⟩,
       append_turn
         (append_turn store (resolve_session fs addr randHex) ⟨Role.user, msg⟩)
         (resolve_session fs addr randHex)
         ⟨Role.assistant, get_groq_response msg (String.intercalate "\n\n" retrieved)
           (store (resolve_session fs addr randHex)) gen⟩,
       some (resolve_session fs addr randHex), true) := by
      unfold chat
      rw [if_neg hmsg]
      rfl
    rw [hg] at h0
    exact h0
  · unfold append_turn
    rw [if_pos rfl, if_pos rfl, List.append_assoc]
    rfl
  · intro hcon
    have hlen := congrArg String.length hcon
    rw [String.length_append] at hlen
    have h27 : ("Error generating response: " : String).length = 27 := rfl
    have hz : ("" : String).length = 0 := rfl
    rw [h27, hz] at hlen
    omega

/-- Witness for `chat_generation_failure_recorded`: a one-chunk index, a
generation stub that always raises `boom`, an existing cookie session. -/
theorem chat_generation_failure_recorded_witness :
    ("q" : String) ≠ ""
    ∧ (∀ p : String, (fun _ : String => (Except.error "boom" : Except String String)) p
        = Except.error "boom")
    ∧ (chat "q" (some "s1") none "r" (fun _ => []) (some [⟨"b.txt", ['h', 'i']⟩])
        ⟨["ctx"], none, 5, fun _ => Except.error "boom"⟩).2.1 "s1"
      = [⟨Role.user, "q"⟩, ⟨Role.assistant, "Error generating response: boom"⟩]
    ∧ (chat "q" (some "s1") none "r" (fun _ => []) (some [⟨"b.txt", ['h', 'i']⟩])
        ⟨["ctx"], none, 5, fun _ => Except.error "boom"⟩).1
      = ChatResult.ok ⟨"Error generating response: boom", 5, ["ctx"],
          ["q", "Error generating response: boom"]⟩ := by
  have h := chat_generation_failure_recorded "q" "boom" (some "s1") none "r"
    (fun _ => []) [⟨"b.txt", ['h', 'i']⟩] ["ctx"] 5 (fun _ => Except.error "boom")
    (by decide) (fun p => rfl)
  refine ⟨by decide, fun p => rfl, ?_, ?_⟩
  · rw [h.1]
    simp [append_turn, resolve_session]
  · rw [h.1]
    simp [append_turn, resolve_session]

theorem history_text_concat (h : List Turn) :
    ∀ acc : String, h.foldl (fun a m => a ++ renderTurn m) acc
      = acc ++ strConcat (h.map renderTurn) := by
  induction h with
  | nil =>
    intro acc
    rw [List.foldl_nil, List.map_nil]
    exact (str_append_empty acc).symm
  | cons t ts ih =>
    intro acc
    rw [List.foldl_cons, List.map_cons, ih (acc ++ renderTurn t), str_append_assoc]
    rfl

theorem history_text_eq_block (h : List Turn) :
    history_text h = spec_history_block h := by
  unfold history_text spec_history_block
  rw [history_text_concat h ""]
  exact str_empty_append _

/-- C8: the assembled prompt concatenates, in this fixed order: each prior
turn rendered as `"<role-label>: <text>"` with `user ↦ "User"` and
`assistant ↦ "AI"`, oldest first; then the fixed instruction block
constraining the answer to the supplied context; then the context block;
then the current query. -/
theorem prompt_assembly_order (query context : String) (h : List Turn) :
    formatted_prompt query context h = spec_prompt query context h := by
  unfold formatted_prompt spec_prompt
  rw [history_text_eq_block]
  have hsplit : ("\nAnswer the question based on the provided context only.\nPlease provide the most accurate response based on the question.\n\nContext:\n" : String)
      = "\n" ++ spec_instruction_block ++ "\n\nContext:\n" := by decide
  rw [hsplit]
  simp [str_append_assoc]

/-- C9 counterexample: two distinct cookie-less clients behind the same
address (distinct fresh random identifiers are available to each) resolve to
the same session id — namely the shared remote address, which is neither a
client-supplied id nor either of the freshly minted random identifiers. -/
theorem session_resolution_collision_cex :
    resolve_session none (some "203.0.113.7") "aaaa1111" = "203.0.113.7"
    ∧ resolve_session none (some "203.0.113.7") "bbbb2222" = "203.0.113.7"
    ∧ ("aaaa1111" : String) ≠ "bbbb2222"
    ∧ resolve_session none (some "203.0.113.7") "aaaa1111" ≠ "aaaa1111"
    ∧ resolve_session none (some "203.0.113.7") "bbbb2222" ≠ "bbbb2222" := by
  refine ⟨rfl, rfl, by decide, by decide, by decide⟩

/-- C9 amended: the resolved session id is the client's non-empty cookie id
when present; otherwise it is the client's remote address when present and
non-empty, and only when that is absent a fresh random hex — so all
cookie-less clients sharing a remote address resolve to the same session id,
whatever distinct random identifiers were available. -/
theorem resolve_session_falls_back_to_address (sid a r r1 r2 : String)
    (hs : sid ≠ "") (ha : a ≠ "") :
    resolve_session (some sid) (some a) r = sid
    ∧ resolve_session none (some a) r = a
    ∧ resolve_session none none r = r
    ∧ resolve_session none (some a) r1 = resolve_session none (some a) r2 := by
  simp only [resolve_session, session_fallback]
  simp [hs, ha]

/-- Witness for `resolve_session_falls_back_to_address`. -/
theorem resolve_session_falls_back_to_address_witness :
    ("c7" : String) ≠ ""
    ∧ ("10.0.0.9" : String) ≠ ""
    ∧ resolve_session (some "c7") (some "10.0.0.9") "r" = "c7"
    ∧ resolve_session none (some "10.0.0.9") "r" = "10.0.0.9"
    ∧ resolve_session none none "r" = "r"
    ∧ resolve_session none (some "10.0.0.9") "x1"
      = resolve_session none (some "10.0.0.9") "x2" := by
  have h := resolve_session_falls_back_to_address "c7" "10.0.0.9" "r" "x1" "x2"
    (by decide) (by decide)
  exact ⟨by decide, by decide, h.1, h.2.1, h.2.2.1, h.2.2.2⟩

end RAG
